import Mathlib

/-!
# Model ingestion and material classification of `supra.cpp`

A shallow embedding of the load phase of `src/supra.cpp`:

* `LoadTexture` (lines 120-180), the texture loader with its basename retry;
* the per-material loop of `main` (lines 310-386), here `loadMaterial` (one
  iteration) and `loadMaterials` (the loop);
* `processMesh` (lines 182-222) and `processNode` (lines 224-232).

Conventions of the embedding.

* `unsigned int` is a natural number; where the source converts or multiplies
  into an `unsigned int` the result is reduced modulo `2 ^ 32`.
* `float` is `CFloat`: a rational value, an infinity or a NaN.  The `float`
  literals of the source are the exact single-precision values they denote.
* `std::vector` and the arrays of a mesh are lists; a count field such as
  `mNumFaces` is the length of the corresponding list.  The mesh table of the
  scene, which the code indexes without reading its count, is a function of
  the position.
* The collaborators are parameters: `decode` is `stbi_load` (a file path to an
  optional image), `dev` gives the name the graphics device hands out for the
  `k`-th texture it creates.  The `World` records the calls made to them.
* Console output is not modelled.
-/

namespace Supra

/-! ## Numbers -/

/-- A value of the C++ type `float`. -/
inductive CFloat where
  | finite (q : ℚ)
  | inf (negative : Bool)
  | nan
deriving DecidableEq

/-- The comparison `a < b` on `float`: false as soon as an operand is a NaN. -/
def CFloat.lt : CFloat → CFloat → Bool
  | .finite a, .finite b => decide (a < b)
  | .finite _, .inf negative => !negative
  | .inf negative, .finite _ => negative
  | .inf a, .inf b => a && !b
  | _, _ => false

/-- The literal `1.0f`. -/
def f1_0 : CFloat := .finite 1
/-- The literal `0.0f`. -/
def f0_0 : CFloat := .finite 0
/-- The literal `0.1f`, that is 13421773 / 2^27. -/
def f0_1 : CFloat := .finite (13421773 / 134217728)
/-- The literal `0.15f`, that is 5033165 / 2^25. -/
def f0_15 : CFloat := .finite (5033165 / 33554432)
/-- The literal `0.3f`, that is 5033165 / 2^24. -/
def f0_3 : CFloat := .finite (5033165 / 16777216)
/-- The literal `0.99f`, that is 4152361 / 2^22. -/
def f0_99 : CFloat := .finite (4152361 / 4194304)

/-- Conversion to `unsigned int` (32 bits). -/
def toUInt (n : Nat) : Nat := n % 2 ^ 32

/-! ## Data model (lines 23-47) -/

/-- The type `glm::vec3`. -/
structure vec3 where
  x : CFloat
  y : CFloat
  z : CFloat
deriving DecidableEq

/-- The type `glm::vec2`. -/
structure vec2 where
  x : CFloat
  y : CFloat
deriving DecidableEq

structure Vertex where
  Position : vec3
  Normal : vec3
  TexCoords : vec2
deriving DecidableEq

structure SubMesh where
  indexCount : Nat
  baseIndex : Nat
  baseVertex : Nat
  materialIndex : Nat
deriving DecidableEq

structure Material where
  diffuseColor : vec3
  textureID : Nat
  isEmissive : Bool
  isTransparent : Bool
  transparency : CFloat
deriving DecidableEq

/-! ## Strings -/

/-- Search of `pat` in the text `s`, whose first character has position `pos`. -/
def findFrom (pat : List Char) : List Char → Nat → Option Nat
  | [], pos => if pat.isPrefixOf [] then some pos else none
  | c :: cs, pos =>
    if pat.isPrefixOf (c :: cs) then some pos else findFrom pat cs (pos + 1)

/-- The call `s.find(pat)` of `std::string`: the first position at which `pat`
occurs in `s`; `none` is `std::string::npos`. -/
def find (s pat : String) : Option Nat := findFrom pat.toList s.toList 0

/-- The call `s.find_last_of(set)` on the characters of `s`: the last position
holding a character of `set`; `none` is `std::string::npos`. -/
def find_last_of (set : List Char) : List Char → Option Nat
  | [] => none
  | c :: cs =>
    match find_last_of set cs with
    | some i => some (i + 1)
    | none => if c ∈ set then some 0 else none

/-- The call `s.substr(pos)`. -/
def substr (s : String) (pos : Nat) : String := String.mk (s.toList.drop pos)

/-! ## Collaborators: image decoder and graphics device -/

/-- What `stbi_load` yields on success. -/
structure Image where
  width : Nat
  height : Nat
  nrComponents : Nat
  data : List Nat
deriving DecidableEq

/-- The format constants used by the loader. -/
inductive GLenum where
  | GL_R8 | GL_RGB8 | GL_RGBA8 | GL_RED | GL_RGB | GL_RGBA
deriving DecidableEq

/-- One texture given storage and pixels
(`glTextureStorage2D` followed by `glTextureSubImage2D`). -/
structure TextureUpload where
  texture : Nat
  internalFormat : GLenum
  dataFormat : GLenum
  width : Nat
  height : Nat
  pixels : List Nat
  mipmap : Bool
deriving DecidableEq

/-- The part of the outside world the load phase acts on. -/
structure World where
  /-- Number of `glCreateTextures` calls made so far. -/
  texturesCreated : Nat
  /-- The textures filled so far, oldest first. -/
  uploads : List TextureUpload
  /-- The paths passed to `stbi_load` so far, oldest first. -/
  stbiLoads : List String
deriving DecidableEq

/-- The call `glCreateTextures(GL_TEXTURE_2D, 1, &id)`. -/
def glCreateTextures (dev : Nat → Nat) (w : World) : Nat × World :=
  (dev w.texturesCreated, { w with texturesCreated := w.texturesCreated + 1 })

/-- The call `stbi_load(path, ...)`. -/
def stbi_load (decode : String → Option Image) (path : String) (w : World) :
    Option Image × World :=
  (decode path, { w with stbiLoads := w.stbiLoads ++ [path] })

/-! ## `LoadTexture` (lines 120-180) -/

/-- The pair `(internalFormat, dataFormat)` chosen at lines 151-165. -/
def textureFormats (nrComponents : Nat) : GLenum × GLenum :=
  if nrComponents = 1 then (.GL_R8, .GL_RED)
  else if nrComponents = 3 then (.GL_RGB8, .GL_RGB)
  else if nrComponents = 4 then (.GL_RGBA8, .GL_RGBA)
  else (.GL_RGBA8, .GL_RGBA)

/-- Lines 150-177: storage, pixels and mipmaps of the texture `textureID`. -/
def uploadImage (textureID : Nat) (img : Image) (w : World) : World :=
  { w with uploads := w.uploads ++
      [{ texture := textureID
         internalFormat := (textureFormats img.nrComponents).1
         dataFormat := (textureFormats img.nrComponents).2
         width := img.width, height := img.height
         pixels := img.data, mipmap := true }] }

/-- Lines 133-134: the name `simpleName` derived from `filename`. -/
def simpleName (filename : String) : String :=
  match find_last_of ['/', '\\'] filename.toList with
  | none => filename
  | some lastSlash => substr filename (lastSlash + 1)

/-- The function `LoadTexture(path, directory)`. -/
def LoadTexture (decode : String → Option Image) (dev : Nat → Nat)
    (path directory : String) (w : World) : Nat × World :=
  let filename := path
  let finalPath := directory ++ "/" ++ filename
  let (textureID, w) := glCreateTextures dev w
  let (data, w) := stbi_load decode finalPath w
  match data with
  | none =>
    let fallbackPath := directory ++ "/" ++ simpleName filename
    let (data, w) := stbi_load decode fallbackPath w
    match data with
    | some img => (textureID, uploadImage textureID img w)
    | none => (0, w)
  | some img => (textureID, uploadImage textureID img w)

/-! ## The material loop of `main` (lines 310-386) -/

/-- The type `aiColor3D`. -/
structure aiColor3D where
  r : CFloat
  g : CFloat
  b : CFloat
deriving DecidableEq

/-- What the loop reads of an `aiMaterial`: each `Get` either fails (`none`)
or yields a value; `diffuseTextures` lists the file names of the textures of
type `aiTextureType_DIFFUSE`. -/
structure aiMaterial where
  name : Option String
  colorDiffuse : Option aiColor3D
  opacity : Option CFloat
  diffuseTextures : List String
deriving DecidableEq

/-- The test of lines 325-330. -/
def isLightName (name : String) : Bool :=
  (find name "light").isSome || (find name "Light").isSome ||
  (find name "tail").isSome || (find name "Tail").isSome ||
  (find name "lamp").isSome || (find name "Lamp").isSome

/-- The test of lines 336-341. -/
def isGlassName (name : String) : Bool :=
  (find name "glass").isSome || (find name "Glass").isSome ||
  (find name "window").isSome || (find name "Window").isSome ||
  (find name "windshield").isSome || (find name "Windshield").isSome

/-- Lines 312-365: the classification of one material, before its texture is
resolved. -/
def classify (material : aiMaterial) : Material :=
  let mat : Material :=
    { textureID := 0, diffuseColor := ⟨f1_0, f1_0, f1_0⟩, isEmissive := false,
      isTransparent := false, transparency := f1_0 }
  let mat :=
    match material.name with
    | some name =>
      let mat :=
        if isLightName name then
          { mat with isEmissive := true, diffuseColor := ⟨f1_0, f0_1, f0_0⟩ }
        else mat
      if isGlassName name then
        { mat with isTransparent := true, transparency := f0_3,
                   diffuseColor := ⟨f0_1, f0_1, f0_15⟩ }
      else mat
    | none => mat
  let mat :=
    match material.colorDiffuse with
    | some color =>
      if !mat.isEmissive && !mat.isTransparent then
        { mat with diffuseColor := ⟨color.r, color.g, color.b⟩ }
      else mat
    | none => mat
  match material.opacity with
  | some opacity =>
    if opacity.lt f0_99 then
      { mat with isTransparent := true, transparency := opacity }
    else mat
  | none => mat

/-- Lines 367-383: the texture of the material, loaded from `"."`, then from
`"textures"`, and replaced by a fresh 1x1 white texture when still unset. -/
def resolveTexture (decode : String → Option Image) (dev : Nat → Nat)
    (material : aiMaterial) (mat : Material) (w : World) : Material × World :=
  let (mat, w) :=
    match material.diffuseTextures with
    | str :: _ =>
      let (id, w) := LoadTexture decode dev str "." w
      let mat := { mat with textureID := id }
      if mat.textureID = 0 then
        let (id, w) := LoadTexture decode dev str "textures" w
        ({ mat with textureID := id }, w)
      else (mat, w)
    | [] => (mat, w)
  if mat.textureID = 0 then
    let whitePixel := [255, 255, 255, 255]
    let (id, w) := glCreateTextures dev w
    ({ mat with textureID := id },
     { w with uploads := w.uploads ++
        [{ texture := id, internalFormat := .GL_RGBA8, dataFormat := .GL_RGBA,
           width := 1, height := 1, pixels := whitePixel, mipmap := false }] })
  else (mat, w)

/-- One iteration of the loop of lines 310-386, up to the `push_back`. -/
def loadMaterial (decode : String → Option Image) (dev : Nat → Nat)
    (material : aiMaterial) (w : World) : Material × World :=
  resolveTexture decode dev material (classify material) w

/-- The loop of lines 310-386 over the materials of the scene: the list
`materials` after the loop, and the world. -/
def loadMaterials (decode : String → Option Image) (dev : Nat → Nat) :
    List aiMaterial → List Material → World → List Material × World
  | [], materials, w => (materials, w)
  | material :: rest, materials, w =>
    let (mat, w) := loadMaterial decode dev material w
    loadMaterials decode dev rest (materials ++ [mat]) w

/-! ## The imported scene -/

/-- The type `aiVector3D`. -/
structure aiVector3D where
  x : CFloat
  y : CFloat
  z : CFloat
deriving DecidableEq

/-- The type `aiFace`: `mNumIndices` is the length of `mIndices`. -/
structure aiFace where
  mIndices : List Nat
deriving DecidableEq

/-- What `processMesh` reads of an `aiMesh`.  `mNormals` and `mTextureCoords0`
are `none` for a null pointer; `mNumVertices` and `mNumFaces` are the lengths
of `mVertices` and `mFaces`. -/
structure aiMesh where
  mVertices : List aiVector3D
  mNormals : Option (List aiVector3D)
  mTextureCoords0 : Option (List aiVector3D)
  mFaces : List aiFace
  mMaterialIndex : Nat
deriving DecidableEq

def aiFace.mNumIndices (face : aiFace) : Nat := face.mIndices.length

def aiMesh.mNumVertices (mesh : aiMesh) : Nat := mesh.mVertices.length

def aiMesh.mNumFaces (mesh : aiMesh) : Nat := mesh.mFaces.length

/-- The type `aiNode`: the indices of its meshes and its children. -/
inductive aiNode where
  | mk (mMeshes : List Nat) (mChildren : List aiNode)

/-- What the load phase reads of an `aiScene`.  `mMeshes` is the mesh table as
`processNode` reads it, the mesh stored at a position: the code indexes the
table without consulting `mNumMeshes`. -/
structure aiScene where
  mMeshes : Nat → aiMesh
  mMaterials : List aiMaterial
  mRootNode : aiNode

/-- The global vectors of lines 44-46. -/
structure Globals where
  allVertices : List Vertex
  allIndices : List Nat
  subMeshes : List SubMesh
deriving DecidableEq

/-- The state of the vectors at program start. -/
def Globals.empty : Globals := ⟨[], [], []⟩

/-! ## `processMesh` (lines 182-222) -/

/-- Lines 190-210: the vertex built for position `i` of the mesh.  An array
read is the list entry; the importer gives every attribute array
`mNumVertices` entries, a read past a shorter list yields the zero vector. -/
def makeVertex (mesh : aiMesh) (i : Nat) : Vertex :=
  let zero : aiVector3D := ⟨f0_0, f0_0, f0_0⟩
  let p := mesh.mVertices.getD i zero
  let normal : vec3 :=
    match mesh.mNormals with
    | some normals =>
      let n := normals.getD i zero
      ⟨n.x, n.y, n.z⟩
    | none => ⟨f0_0, f1_0, f0_0⟩
  let texCoords : vec2 :=
    match mesh.mTextureCoords0 with
    | some coords =>
      let t := coords.getD i zero
      ⟨t.x, t.y⟩
    | none => ⟨f0_0, f0_0⟩
  { Position := ⟨p.x, p.y, p.z⟩, Normal := normal, TexCoords := texCoords }

/-- The function `processMesh(mesh, scene)`. -/
def processMesh (mesh : aiMesh) (g : Globals) : Globals :=
  let sm : SubMesh :=
    { indexCount := toUInt (mesh.mNumFaces * 3)
      baseVertex := toUInt g.allVertices.length
      baseIndex := toUInt g.allIndices.length
      materialIndex := mesh.mMaterialIndex }
  let allVertices :=
    (List.range mesh.mNumVertices).foldl
      (fun vs i => vs ++ [makeVertex mesh i]) g.allVertices
  let allIndices :=
    mesh.mFaces.foldl
      (fun is face => face.mIndices.foldl (fun is k => is ++ [k]) is)
      g.allIndices
  { allVertices := allVertices, allIndices := allIndices,
    subMeshes := g.subMeshes ++ [sm] }

/-! ## `processNode` (lines 224-232) -/

/-- The loop of lines 225-228 over the mesh indices of a node. -/
def processNodeMeshes (scene : aiScene) : List Nat → Globals → Globals
  | [], g => g
  | i :: rest, g => processNodeMeshes scene rest (processMesh (scene.mMeshes i) g)

mutual
/-- The function `processNode(node, scene)`. -/
def processNode (scene : aiScene) : aiNode → Globals → Globals
  | .mk mMeshes mChildren, g =>
    processChildren scene mChildren (processNodeMeshes scene mMeshes g)
/-- The loop of lines 229-231 over the children of a node. -/
def processChildren (scene : aiScene) : List aiNode → Globals → Globals
  | [], g => g
  | child :: rest, g => processChildren scene rest (processNode scene child g)
end

/-! ## Vocabulary of the specification -/

/-- The emissive tokens. -/
def emissiveTokens : List String :=
  ["light", "Light", "tail", "Tail", "lamp", "Lamp"]

/-- The transparency tokens. -/
def transparencyTokens : List String :=
  ["glass", "Glass", "window", "Window", "windshield", "Windshield"]

/-- The text `name` contains one of `tokens` as a contiguous, case-sensitive
substring. -/
def containsToken (name : String) (tokens : List String) : Prop :=
  ∃ t ∈ tokens, t.toList <:+: name.toList

/-- The color white, the default of a material. -/
def white : vec3 := ⟨f1_0, f1_0, f1_0⟩

/-- The warm tint (1.0, 0.1, 0.0) of emissive materials. -/
def warmTint : vec3 := ⟨f1_0, f0_1, f0_0⟩

/-- The cool dark tint (0.1, 0.1, 0.15) of glass materials. -/
def coolTint : vec3 := ⟨f0_1, f0_1, f0_15⟩

/-- The source diffuse color as a `glm::vec3`. -/
def aiColor3D.toVec3 (c : aiColor3D) : vec3 := ⟨c.r, c.g, c.b⟩

/-- The character `c` is a path separator, `/` or `\`. -/
def isSeparator (c : Char) : Prop := c = '/' ∨ c = '\\'

/-- The text `b` is the basename of `path`: the whole of `path` when it holds
no separator, and otherwise the text after its last separator. -/
def IsBasename (b path : String) : Prop :=
  ((∀ c ∈ path.toList, ¬ isSeparator c) ∧ b = path) ∨
  ∃ pre sep, isSeparator sep ∧ path.toList = pre ++ sep :: b.toList ∧
    ∀ c ∈ b.toList, ¬ isSeparator c

/-- The upload of the synthesized 1x1 opaque white texture named `id`
(lines 379-382). -/
def whiteUpload (id : Nat) : TextureUpload :=
  { texture := id, internalFormat := .GL_RGBA8, dataFormat := .GL_RGBA,
    width := 1, height := 1, pixels := [255, 255, 255, 255], mipmap := false }

/-- The largest index occurring in a face of the mesh (0 without any). -/
def maxFaceIndex (mesh : aiMesh) : Nat :=
  (mesh.mFaces.map (fun face => face.mIndices.foldl max 0)).foldl max 0

/-- The indices of all faces of the mesh, in face order. -/
def aiMesh.faceIndices (mesh : aiMesh) : List Nat :=
  (mesh.mFaces.map (fun face => face.mIndices)).flatten

mutual
/-- The mesh references of a node tree in depth-first pre-order: those of the
node in declared order, then those of each child subtree in declared order. -/
def aiNode.meshRefs : aiNode → List Nat
  | .mk mMeshes mChildren => mMeshes ++ childrenMeshRefs mChildren
/-- The mesh references of a list of subtrees, in order. -/
def childrenMeshRefs : List aiNode → List Nat
  | [] => []
  | child :: rest => child.meshRefs ++ childrenMeshRefs rest
end

/-- The invariant of SubMesh: its draw range lies inside the index buffer. -/
def SubMesh.inRange (s : SubMesh) (g : Globals) : Prop :=
  s.baseIndex + s.indexCount ≤ g.allIndices.length

/-! ## Concrete inputs used in the examples -/

/-- The world at program start. -/
def World.initial : World := ⟨0, [], []⟩

/-- A file system in which no image can be decoded. -/
def noFiles : String → Option Image := fun _ => none

/-- A device naming its textures 1, 2, 3, ... -/
def seqDevice : Nat → Nat := fun k => k + 1

/-- A file system holding one image, at the path `p`. -/
def oneFile (p : String) : String → Option Image :=
  fun q => if q = p then some ⟨1, 1, 4, [0, 0, 0, 255]⟩ else none

/-- A triangle mesh on the four corners of a unit square. -/
def quadMesh : aiMesh :=
  { mVertices := [⟨f0_0, f0_0, f0_0⟩, ⟨f1_0, f0_0, f0_0⟩,
                  ⟨f1_0, f1_0, f0_0⟩, ⟨f0_0, f1_0, f0_0⟩]
    mNormals := none
    mTextureCoords0 := none
    mFaces := [⟨[0, 1, 2]⟩, ⟨[0, 2, 3]⟩]
    mMaterialIndex := 5 }

/-- A mesh made of one line segment: its only face has two indices. -/
def lineMesh : aiMesh :=
  { mVertices := [⟨f0_0, f0_0, f0_0⟩, ⟨f1_0, f0_0, f0_0⟩]
    mNormals := none
    mTextureCoords0 := none
    mFaces := [⟨[0, 1]⟩]
    mMaterialIndex := 0 }

/-- A mesh of 1431655766 triangles on three vertices. -/
def hugeMesh : aiMesh :=
  { mVertices := [⟨f0_0, f0_0, f0_0⟩, ⟨f1_0, f0_0, f0_0⟩, ⟨f1_0, f1_0, f0_0⟩]
    mNormals := none
    mTextureCoords0 := none
    mFaces := List.replicate 1431655766 ⟨[0, 1, 2]⟩
    mMaterialIndex := 0 }

/-- A mesh whose single triangle names a vertex it does not have. -/
def strayMesh : aiMesh :=
  { mVertices := [⟨f0_0, f0_0, f0_0⟩]
    mNormals := none
    mTextureCoords0 := none
    mFaces := [⟨[0, 0, 7]⟩]
    mMaterialIndex := 0 }

/-- A scene whose root node owns the single mesh `lineMesh`. -/
def lineScene : aiScene :=
  { mMeshes := fun _ => lineMesh
    mMaterials := []
    mRootNode := .mk [0] [] }

/-- A scene of three meshes told apart by their material index: the root owns
mesh 2, its first child owns meshes 0 and 1 and has a child owning mesh 2
again, its second child owns mesh 1. -/
def treeScene : aiScene :=
  { mMeshes := fun i => { quadMesh with mMaterialIndex := 10 + i }
    mMaterials := []
    mRootNode := .mk [2] [.mk [0, 1] [.mk [2] []], .mk [1] []] }

/-! ## The `float` literals -/

/-- Each literal is a multiple of the unit in the last place of its binade
(2^-27 for 0.1, 2^-26 for 0.15, 2^-25 for 0.3, 2^-24 for 0.99) and lies
within half a unit of the decimal it is written as: it is the
single-precision value nearest to that decimal. -/
theorem float_literals_nearest :
    (f0_1 = .finite (13421773 / 2 ^ 27) ∧ |(13421773 / 2 ^ 27 : ℚ) - 1 / 10| < 1 / 2 ^ 28) ∧
    (f0_15 = .finite (10066330 / 2 ^ 26) ∧ |(10066330 / 2 ^ 26 : ℚ) - 15 / 100| < 1 / 2 ^ 27) ∧
    (f0_3 = .finite (10066330 / 2 ^ 25) ∧ |(10066330 / 2 ^ 25 : ℚ) - 3 / 10| < 1 / 2 ^ 26) ∧
    (f0_99 = .finite (16609444 / 2 ^ 24) ∧ |(16609444 / 2 ^ 24 : ℚ) - 99 / 100| < 1 / 2 ^ 25) := by
  refine ⟨⟨?_, ?_⟩, ⟨?_, ?_⟩, ⟨?_, ?_⟩, ⟨?_, ?_⟩⟩
  · simp only [f0_1, CFloat.finite.injEq]; norm_num
  · rw [abs_lt]; constructor <;> norm_num
  · simp only [f0_15, CFloat.finite.injEq]; norm_num
  · rw [abs_lt]; constructor <;> norm_num
  · simp only [f0_3, CFloat.finite.injEq]; norm_num
  · rw [abs_lt]; constructor <;> norm_num
  · simp only [f0_99, CFloat.finite.injEq]; norm_num
  · rw [abs_lt]; constructor <;> norm_num

/-! ## Substring search -/

theorem findFrom_isSome (pat s : List Char) (pos : Nat) :
    (findFrom pat s pos).isSome = true ↔ pat <:+: s := by
  induction s generalizing pos with
  | nil =>
    unfold findFrom
    by_cases h : pat.isPrefixOf [] = true
    · have h2 : pat = [] := by simpa using h
      simp [h2]
    · have h2 : ¬ pat = [] := by simpa using h
      simp [h2]
  | cons c cs ih =>
    unfold findFrom
    rw [List.infix_cons_iff]
    by_cases h : pat.isPrefixOf (c :: cs) = true
    · have h2 : pat <+: c :: cs := List.isPrefixOf_iff_prefix.1 h
      simp [h, h2]
    · have h2 : ¬ pat <+: c :: cs := fun hp => h (List.isPrefixOf_iff_prefix.2 hp)
      rw [if_neg h, ih]
      simp [h2]

theorem find_isSome (s pat : String) :
    (find s pat).isSome = true ↔ pat.toList <:+: s.toList :=
  findFrom_isSome pat.toList s.toList 0

theorem isLightName_iff (name : String) :
    isLightName name = true ↔ containsToken name emissiveTokens := by
  simp [isLightName, containsToken, emissiveTokens, find_isSome, or_assoc]

theorem isGlassName_iff (name : String) :
    isGlassName name = true ↔ containsToken name transparencyTokens := by
  simp [isGlassName, containsToken, transparencyTokens, find_isSome, or_assoc]

/-! ## Material classification -/

/-- Texture resolution changes the texture handle only. -/
theorem resolveTexture_fields (decode : String → Option Image) (dev : Nat → Nat)
    (material : aiMaterial) (mat : Material) (w : World) :
    (resolveTexture decode dev material mat w).1.diffuseColor = mat.diffuseColor ∧
    (resolveTexture decode dev material mat w).1.isEmissive = mat.isEmissive ∧
    (resolveTexture decode dev material mat w).1.isTransparent = mat.isTransparent ∧
    (resolveTexture decode dev material mat w).1.transparency = mat.transparency := by
  unfold resolveTexture
  cases material.diffuseTextures with
  | nil => dsimp only; split <;> simp
  | cons str rest =>
    dsimp only
    by_cases h1 : (LoadTexture decode dev str "." w).1 = 0
    · simp only [h1, if_true]; split <;> simp
    · simp [h1]

/-- A value below the real number 0.99 is below the literal `0.99f`. -/
theorem lt_f0_99_of_lt (o : CFloat) (h : o.lt (.finite (99 / 100)) = true) :
    o.lt f0_99 = true := by
  cases o with
  | finite q =>
    simp only [CFloat.lt, f0_99, decide_eq_true_eq] at h ⊢
    have : (99 / 100 : ℚ) < 4152361 / 4194304 := by norm_num
    exact lt_trans h this
  | inf negative => simpa [CFloat.lt, f0_99] using h
  | nan => simp [CFloat.lt] at h

theorem classify_isEmissive (material : aiMaterial) :
    (classify material).isEmissive =
      match material.name with
      | some name => isLightName name
      | none => false := by
  unfold classify
  rcases material with ⟨_ | name, _ | color, _ | opacity, tex⟩ <;> dsimp only <;>
    repeat' split
  all_goals simp_all

/-- C1 (amended): a material whose name contains an emissive token is emissive
whatever its other properties; its diffuse color is the warm tint
(1.0, 0.1, 0.0) when the name contains no transparency token, and the cool
tint (0.1, 0.1, 0.15) when it contains one. -/
theorem emissive_name_material (decode : String → Option Image) (dev : Nat → Nat)
    (w : World) (material : aiMaterial) (name : String)
    (hname : material.name = some name)
    (htok : containsToken name emissiveTokens) :
    (loadMaterial decode dev material w).1.isEmissive = true ∧
    (¬ containsToken name transparencyTokens →
      (loadMaterial decode dev material w).1.diffuseColor = warmTint) ∧
    (containsToken name transparencyTokens →
      (loadMaterial decode dev material w).1.diffuseColor = coolTint) := by
  obtain ⟨hc, he, -, -⟩ := resolveTexture_fields decode dev material (classify material) w
  have hL : isLightName name = true := (isLightName_iff name).2 htok
  unfold loadMaterial
  rw [hc, he]
  rcases material with ⟨n, color, opacity, tex⟩
  simp only at hname
  subst hname
  refine ⟨?_, ?_, ?_⟩
  · rw [classify_isEmissive]; exact hL
  · intro hG
    have hG2 : isGlassName name = false := by
      rw [← Bool.not_eq_true, isGlassName_iff]; exact hG
    rcases color with _ | color <;> rcases opacity with _ | opacity <;>
      simp [classify, hL, hG2, warmTint] <;> split <;> rfl
  · intro hG
    have hG2 : isGlassName name = true := (isGlassName_iff name).2 hG
    rcases color with _ | color <;> rcases opacity with _ | opacity <;>
      simp [classify, hL, hG2, coolTint] <;> split <;> rfl

/-- The material fields other than the texture handle are those computed by
`classify`. -/
theorem loadMaterial_fields (decode : String → Option Image) (dev : Nat → Nat)
    (material : aiMaterial) (w : World) :
    (loadMaterial decode dev material w).1.diffuseColor = (classify material).diffuseColor ∧
    (loadMaterial decode dev material w).1.isEmissive = (classify material).isEmissive ∧
    (loadMaterial decode dev material w).1.isTransparent = (classify material).isTransparent ∧
    (loadMaterial decode dev material w).1.transparency = (classify material).transparency :=
  resolveTexture_fields decode dev material (classify material) w

theorem coolTint_ne_warmTint : coolTint ≠ warmTint := by
  simp only [coolTint, warmTint, f0_1, f1_0, f0_15, f0_0, ne_eq, vec3.mk.injEq,
    CFloat.finite.injEq]
  norm_num

/-- C1 (counterexample): the name "Headlight_Glass" contains the emissive token
"light", yet the material gets the cool tint, not (1.0, 0.1, 0.0). -/
theorem emissive_name_material_counterexample :
    containsToken "Headlight_Glass" emissiveTokens ∧
    (loadMaterial noFiles seqDevice
      ⟨some "Headlight_Glass", none, none, []⟩ World.initial).1.isEmissive = true ∧
    (loadMaterial noFiles seqDevice
      ⟨some "Headlight_Glass", none, none, []⟩ World.initial).1.diffuseColor = coolTint ∧
    (loadMaterial noFiles seqDevice
      ⟨some "Headlight_Glass", none, none, []⟩ World.initial).1.diffuseColor ≠ warmTint := by
  have hL : isLightName "Headlight_Glass" = true := by decide
  have hG : isGlassName "Headlight_Glass" = true := by decide
  obtain ⟨hc, he, -, -⟩ := loadMaterial_fields noFiles seqDevice
    ⟨some "Headlight_Glass", none, none, []⟩ World.initial
  have hcol : (classify ⟨some "Headlight_Glass", none, none, []⟩).diffuseColor = coolTint := by
    simp [classify, hL, hG, coolTint]
  have hem : (classify ⟨some "Headlight_Glass", none, none, []⟩).isEmissive = true := by
    simp [classify, hL, hG]
  refine ⟨(isLightName_iff _).1 hL, ?_, ?_, ?_⟩
  · rw [he, hem]
  · rw [hc, hcol]
  · rw [hc, hcol]; exact coolTint_ne_warmTint

/-- C1 (witness): "TailLight_L" with a source diffuse color and no
transparency token. -/
theorem emissive_name_material_witness :
    containsToken "TailLight_L" emissiveTokens ∧
    ¬ containsToken "TailLight_L" transparencyTokens ∧
    (loadMaterial noFiles seqDevice
      ⟨some "TailLight_L", some ⟨f0_3, f0_3, f0_3⟩, none, []⟩ World.initial).1.isEmissive = true ∧
    (loadMaterial noFiles seqDevice
      ⟨some "TailLight_L", some ⟨f0_3, f0_3, f0_3⟩, none, []⟩ World.initial).1.diffuseColor
        = warmTint := by
  have hL : containsToken "TailLight_L" emissiveTokens :=
    (isLightName_iff _).1 (by decide)
  have hG : ¬ containsToken "TailLight_L" transparencyTokens := by
    rw [← isGlassName_iff]; decide
  have h := emissive_name_material noFiles seqDevice World.initial
    ⟨some "TailLight_L", some ⟨f0_3, f0_3, f0_3⟩, none, []⟩ "TailLight_L" rfl hL
  exact ⟨hL, hG, h.1, h.2.1 hG⟩

/-- C2: a material that supplies an opacity `o` below 0.99 ends transparent
with transparency `o`, whatever its name, color and texture. -/
theorem opacity_override (decode : String → Option Image) (dev : Nat → Nat)
    (w : World) (material : aiMaterial) (o : CFloat)
    (hop : material.opacity = some o)
    (hlt : o.lt (.finite (99 / 100)) = true) :
    (loadMaterial decode dev material w).1.isTransparent = true ∧
    (loadMaterial decode dev material w).1.transparency = o := by
  obtain ⟨-, -, ht, hv⟩ := loadMaterial_fields decode dev material w
  have hlt2 : o.lt f0_99 = true := lt_f0_99_of_lt o hlt
  rw [ht, hv]
  rcases material with ⟨n, color, opacity, tex⟩
  simp only at hop
  subst hop
  simp [classify, hlt2]

/-- C2 (witness): a material named "glass" with opacity 0.5 ends with
transparency 0.5 (not 0.3), and so does a material without a name. -/
theorem opacity_override_witness :
    (CFloat.finite (1 / 2)).lt (.finite (99 / 100)) = true ∧
    ((loadMaterial noFiles seqDevice
        ⟨some "glass", none, some (.finite (1 / 2)), []⟩ World.initial).1.isTransparent = true ∧
      (loadMaterial noFiles seqDevice
        ⟨some "glass", none, some (.finite (1 / 2)), []⟩ World.initial).1.transparency
          = .finite (1 / 2)) ∧
    ((loadMaterial noFiles seqDevice
        ⟨none, none, some (.finite (1 / 2)), []⟩ World.initial).1.isTransparent = true ∧
      (loadMaterial noFiles seqDevice
        ⟨none, none, some (.finite (1 / 2)), []⟩ World.initial).1.transparency
          = .finite (1 / 2)) := by
  have h : (CFloat.finite (1 / 2)).lt (.finite (99 / 100)) = true := by
    simp only [CFloat.lt, decide_eq_true_eq]; norm_num
  exact ⟨h, opacity_override noFiles seqDevice World.initial _ _ rfl h,
    opacity_override noFiles seqDevice World.initial _ _ rfl h⟩

/-- C3 (amended): a material whose name contains a transparency token and no
emissive token is transparent with the cool tint (0.1, 0.1, 0.15); its
transparency is 0.3 when the source supplies no opacity below the threshold
`0.99f`, and is the supplied opacity when that is below the threshold. -/
theorem glass_name_material (decode : String → Option Image) (dev : Nat → Nat)
    (w : World) (material : aiMaterial) (name : String)
    (hname : material.name = some name)
    (htok : containsToken name transparencyTokens)
    (hno : ¬ containsToken name emissiveTokens) :
    (loadMaterial decode dev material w).1.isTransparent = true ∧
    (loadMaterial decode dev material w).1.diffuseColor = coolTint ∧
    ((∀ o, material.opacity = some o → o.lt f0_99 = false) →
      (loadMaterial decode dev material w).1.transparency = f0_3) ∧
    (∀ o, material.opacity = some o → o.lt f0_99 = true →
      (loadMaterial decode dev material w).1.transparency = o) := by
  obtain ⟨hc, -, ht, hv⟩ := loadMaterial_fields decode dev material w
  have hG : isGlassName name = true := (isGlassName_iff name).2 htok
  have hL : isLightName name = false := by
    rw [← Bool.not_eq_true, isLightName_iff]; exact hno
  rw [hc, ht, hv]
  rcases material with ⟨n, color, opacity, tex⟩
  simp only at hname
  subst hname
  rcases color with _ | color <;> rcases opacity with _ | opacity <;>
    simp [classify, hL, hG, coolTint]
  all_goals
    by_cases hlt : opacity.lt f0_99 = true
    · simp [hlt]
    · simp [hlt]

/-- C3 (counterexample): "Windshield_Front" has a transparency token and no
emissive token, but with opacity 0.5 its transparency is 0.5, not 0.3. -/
theorem glass_name_material_counterexample :
    containsToken "Windshield_Front" transparencyTokens ∧
    ¬ containsToken "Windshield_Front" emissiveTokens ∧
    (loadMaterial noFiles seqDevice
      ⟨some "Windshield_Front", none, some (.finite (1 / 2)), []⟩ World.initial).1.transparency
        = .finite (1 / 2) ∧
    (loadMaterial noFiles seqDevice
      ⟨some "Windshield_Front", none, some (.finite (1 / 2)), []⟩ World.initial).1.transparency
        ≠ f0_3 := by
  have hL : isLightName "Windshield_Front" = false := by decide
  have hG : isGlassName "Windshield_Front" = true := by decide
  have hlt : (CFloat.finite (1 / 2)).lt f0_99 = true := by
    simp only [CFloat.lt, f0_99, decide_eq_true_eq]; norm_num
  obtain ⟨-, -, -, hv⟩ := loadMaterial_fields noFiles seqDevice
    ⟨some "Windshield_Front", none, some (.finite (1 / 2)), []⟩ World.initial
  have hval : (classify ⟨some "Windshield_Front", none, some (.finite (1 / 2)), []⟩).transparency
      = .finite (1 / 2) := by
    have hlt2 : (CFloat.finite 2⁻¹).lt f0_99 = true := by simpa using hlt
    simp [classify, hL, hG, hlt2]
  refine ⟨(isGlassName_iff _).1 hG, ?_, ?_, ?_⟩
  · rw [← isLightName_iff, hL]; simp
  · rw [hv, hval]
  · rw [hv, hval]
    simp only [f0_3, ne_eq, CFloat.finite.injEq]
    norm_num

/-- C3 (witness): "Windshield_Front" without opacity, and with opacity 1. -/
theorem glass_name_material_witness :
    containsToken "Windshield_Front" transparencyTokens ∧
    ¬ containsToken "Windshield_Front" emissiveTokens ∧
    (loadMaterial noFiles seqDevice
      ⟨some "Windshield_Front", some ⟨f1_0, f0_0, f0_0⟩, some f1_0, []⟩
      World.initial).1.isTransparent = true ∧
    (loadMaterial noFiles seqDevice
      ⟨some "Windshield_Front", some ⟨f1_0, f0_0, f0_0⟩, some f1_0, []⟩
      World.initial).1.diffuseColor = coolTint ∧
    (loadMaterial noFiles seqDevice
      ⟨some "Windshield_Front", some ⟨f1_0, f0_0, f0_0⟩, some f1_0, []⟩
      World.initial).1.transparency = f0_3 := by
  have hG : containsToken "Windshield_Front" transparencyTokens :=
    (isGlassName_iff _).1 (by decide)
  have hL : ¬ containsToken "Windshield_Front" emissiveTokens := by
    rw [← isLightName_iff]; decide
  have h := glass_name_material noFiles seqDevice World.initial
    ⟨some "Windshield_Front", some ⟨f1_0, f0_0, f0_0⟩, some f1_0, []⟩ "Windshield_Front"
    rfl hG hL
  refine ⟨hG, hL, h.1, h.2.1, h.2.2.1 ?_⟩
  intro o ho
  simp only [Option.some.injEq] at ho
  subst ho
  simp only [CFloat.lt, f1_0, f0_99, decide_eq_false_iff_not, not_lt]
  norm_num

/-- The diffuse color computed by `classify`, by cases on the name tests. -/
theorem classify_diffuseColor (material : aiMaterial) :
    (classify material).diffuseColor =
      match material.name with
      | some name =>
        if isGlassName name then coolTint
        else if isLightName name then warmTint
        else match material.colorDiffuse with
          | some color => color.toVec3
          | none => white
      | none =>
        match material.colorDiffuse with
        | some color => color.toVec3
        | none => white := by
  rcases material with ⟨_ | name, _ | color, _ | opacity, tex⟩
  all_goals
    first
    | (cases hG : isGlassName name <;> cases hL : isLightName name <;>
        simp [classify, hL, hG, coolTint, warmTint, white, aiColor3D.toVec3] <;>
        split <;> rfl)
    | (simp [classify, coolTint, warmTint, white, aiColor3D.toVec3] <;> split <;> rfl)

/-- C10: a material whose name is absent or holds none of the twelve tokens
gets the source diffuse color when there is one and white otherwise, whatever
its opacity; a material whose name holds a token gets one of the two fixed
tints, the same for every source diffuse color. -/
theorem unclassified_color (decode : String → Option Image) (dev : Nat → Nat)
    (w : World) (material : aiMaterial) :
    ((material.name = none ∨ ∃ name, material.name = some name ∧
        ¬ containsToken name emissiveTokens ∧ ¬ containsToken name transparencyTokens) →
      (loadMaterial decode dev material w).1.diffuseColor =
        match material.colorDiffuse with
        | some color => color.toVec3
        | none => white) ∧
    (∀ name, material.name = some name →
      (containsToken name emissiveTokens ∨ containsToken name transparencyTokens) →
      ((loadMaterial decode dev material w).1.diffuseColor = warmTint ∨
        (loadMaterial decode dev material w).1.diffuseColor = coolTint) ∧
      ∀ color : Option aiColor3D,
        (loadMaterial decode dev { material with colorDiffuse := color } w).1.diffuseColor =
          (loadMaterial decode dev material w).1.diffuseColor) := by
  constructor
  · intro h
    rw [(loadMaterial_fields decode dev material w).1, classify_diffuseColor]
    rcases h with h | ⟨name, hname, hE, hT⟩
    · rw [h]
    · have hL : isLightName name = false := by
        rw [← Bool.not_eq_true, isLightName_iff]; exact hE
      have hG : isGlassName name = false := by
        rw [← Bool.not_eq_true, isGlassName_iff]; exact hT
      rw [hname]
      simp [hL, hG]
  · intro name hname htok
    have hcases : isGlassName name = true ∨
        (isGlassName name = false ∧ isLightName name = true) := by
      cases hG : isGlassName name
      · right
        refine ⟨rfl, ?_⟩
        rcases htok with h | h
        · exact (isLightName_iff name).2 h
        · rw [(isGlassName_iff name).2 h] at hG; cases hG
      · left; rfl
    constructor
    · rw [(loadMaterial_fields decode dev material w).1, classify_diffuseColor, hname]
      rcases hcases with hG | ⟨hG, hL⟩
      · right; simp [hG]
      · left; simp [hG, hL]
    · intro color
      rw [(loadMaterial_fields decode dev material w).1,
        (loadMaterial_fields decode dev _ w).1, classify_diffuseColor, classify_diffuseColor]
      simp only [hname]
      rcases hcases with hG | ⟨hG, hL⟩
      · simp [hG]
      · simp [hG, hL]

/-- C10 (witness): "Body_Paint" with a source color and opacity 0.5 keeps the
source color; "Headlight" with the same source color gets the warm tint. -/
theorem unclassified_color_witness :
    (∃ name, (some "Body_Paint" : Option String) = some name ∧
      ¬ containsToken name emissiveTokens ∧ ¬ containsToken name transparencyTokens) ∧
    (loadMaterial noFiles seqDevice
      ⟨some "Body_Paint", some ⟨f0_3, f0_1, f0_0⟩, some (.finite (1 / 2)), []⟩
      World.initial).1.diffuseColor = ⟨f0_3, f0_1, f0_0⟩ ∧
    containsToken "Headlight" emissiveTokens ∧
    (loadMaterial noFiles seqDevice
      ⟨some "Headlight", none, none, []⟩ World.initial).1.diffuseColor =
    (loadMaterial noFiles seqDevice
      ⟨some "Headlight", some ⟨f0_3, f0_1, f0_0⟩, none, []⟩ World.initial).1.diffuseColor := by
  have h1 : ∃ name, (some "Body_Paint" : Option String) = some name ∧
      ¬ containsToken name emissiveTokens ∧ ¬ containsToken name transparencyTokens :=
    ⟨"Body_Paint", rfl, by rw [← isLightName_iff]; decide, by rw [← isGlassName_iff]; decide⟩
  have h2 : containsToken "Headlight" emissiveTokens := (isLightName_iff _).1 (by decide)
  exact ⟨h1,
    (unclassified_color noFiles seqDevice World.initial
      ⟨some "Body_Paint", some ⟨f0_3, f0_1, f0_0⟩, some (.finite (1 / 2)), []⟩).1 (Or.inr h1),
    h2,
    ((unclassified_color noFiles seqDevice World.initial
      ⟨some "Headlight", some ⟨f0_3, f0_1, f0_0⟩, none, []⟩).2 "Headlight" rfl
      (Or.inl h2)).2 none⟩

/-! ## Texture loading -/

theorem find_last_of_none (set s : List Char) :
    find_last_of set s = none ↔ ∀ c ∈ s, c ∉ set := by
  induction s with
  | nil => simp [find_last_of]
  | cons c cs ih =>
    unfold find_last_of
    cases h : find_last_of set cs with
    | none =>
      have hcs := ih.1 h
      by_cases hc : c ∈ set
      · simp [hc]
      · rw [if_neg hc]
        simp only [List.mem_cons, forall_eq_or_imp, true_iff]
        exact ⟨hc, hcs⟩
    | some i =>
      have hne : ¬ ∀ c ∈ cs, c ∉ set := fun hall => by
        rw [ih.2 hall] at h; cases h
      simp only [List.mem_cons, forall_eq_or_imp, false_iff, not_and, reduceCtorEq]
      intro _ hall
      exact hne hall

theorem find_last_of_some (set s : List Char) (i : Nat)
    (h : find_last_of set s = some i) :
    ∃ pre sep post, s = pre ++ sep :: post ∧ pre.length = i ∧ sep ∈ set ∧
      ∀ c ∈ post, c ∉ set := by
  induction s generalizing i with
  | nil => simp [find_last_of] at h
  | cons c cs ih =>
    unfold find_last_of at h
    cases hcs : find_last_of set cs with
    | none =>
      rw [hcs] at h
      by_cases hc : c ∈ set
      · simp only [hc, if_true, Option.some.injEq] at h
        exact ⟨[], c, cs, rfl, by simpa using h, hc, (find_last_of_none set cs).1 hcs⟩
      · simp [hc] at h
    | some j =>
      rw [hcs] at h
      simp only [Option.some.injEq] at h
      obtain ⟨pre, sep, post, hs, hlen, hsep, hpost⟩ := ih j hcs
      refine ⟨c :: pre, sep, post, by rw [hs]; rfl, ?_, hsep, hpost⟩
      simp [hlen, h]

/-- The name `simpleName path` is the basename of `path`. -/
theorem simpleName_isBasename (path : String) : IsBasename (simpleName path) path := by
  unfold simpleName IsBasename
  cases h : find_last_of ['/', '\\'] path.toList with
  | none =>
    left
    refine ⟨?_, rfl⟩
    intro c hc hsep
    have := (find_last_of_none _ _).1 h c hc
    simp only [isSeparator] at hsep
    simp only [List.mem_cons, List.mem_singleton, List.not_mem_nil, or_false] at this
    exact this hsep
  | some i =>
    right
    obtain ⟨pre, sep, post, hs, hlen, hsep, hpost⟩ := find_last_of_some _ _ _ h
    have hdrop : (substr path (i + 1)).toList = post := by
      simp only [substr, String.toList]
      have hd : path.data = pre ++ sep :: post := hs
      rw [hd, ← hlen]
      simp
    refine ⟨pre, sep, ?_, ?_, ?_⟩
    · simpa [isSeparator] using hsep
    · dsimp only; rw [hdrop]; exact hs
    · dsimp only; rw [hdrop]
      intro c hc hsepc
      have := hpost c hc
      simp only [isSeparator] at hsepc
      simp only [List.mem_cons, List.mem_singleton, List.not_mem_nil, or_false] at this
      exact this hsepc

/-- C5: `LoadTexture(path, directory)` first decodes `directory/path`; exactly
when that fails it decodes `directory/basename`, the basename being the text
of `path` after its last `/` or `\` (all of `path` without one); it returns 0
when both attempts fail and the handle of the texture it created otherwise, so
that, the device never naming a texture 0, it returns 0 exactly when both
attempts fail. -/
theorem LoadTexture_retry (decode : String → Option Image) (dev : Nat → Nat)
    (path directory : String) (w : World) :
    (LoadTexture decode dev path directory w).2.stbiLoads =
      w.stbiLoads ++
        (if decode (directory ++ "/" ++ path) = none then
          [directory ++ "/" ++ path, directory ++ "/" ++ simpleName path]
        else [directory ++ "/" ++ path]) ∧
    IsBasename (simpleName path) path ∧
    (LoadTexture decode dev path directory w).1 =
      (if decode (directory ++ "/" ++ path) = none ∧
          decode (directory ++ "/" ++ simpleName path) = none then 0
        else dev w.texturesCreated) ∧
    (dev w.texturesCreated ≠ 0 →
      ((LoadTexture decode dev path directory w).1 = 0 ↔
        decode (directory ++ "/" ++ path) = none ∧
        decode (directory ++ "/" ++ simpleName path) = none)) := by
  refine ⟨?_, simpleName_isBasename path, ?_, ?_⟩
  · unfold LoadTexture
    cases h1 : decode (directory ++ "/" ++ path) with
    | none =>
      cases h2 : decode (directory ++ "/" ++ simpleName path) <;>
        simp [glCreateTextures, stbi_load, uploadImage, h1, h2]
    | some img => simp [glCreateTextures, stbi_load, uploadImage, h1]
  · unfold LoadTexture
    cases h1 : decode (directory ++ "/" ++ path) with
    | none =>
      cases h2 : decode (directory ++ "/" ++ simpleName path) <;>
        simp [glCreateTextures, stbi_load, uploadImage, h1, h2]
    | some img => simp [glCreateTextures, stbi_load, uploadImage, h1]
  · intro hdev
    unfold LoadTexture
    cases h1 : decode (directory ++ "/" ++ path) with
    | none =>
      cases h2 : decode (directory ++ "/" ++ simpleName path) <;>
        simp [glCreateTextures, stbi_load, uploadImage, h1, h2, hdev]
    | some img => simp [glCreateTextures, stbi_load, uploadImage, h1, hdev]

/-- C5 (witness): `LoadTexture("foo/bar.png", "assets")` with no decodable
file tries "assets/foo/bar.png", then "assets/bar.png", and returns 0; with
only "assets/bar.png" decodable it returns the created texture. -/
theorem LoadTexture_retry_witness :
    seqDevice World.initial.texturesCreated ≠ 0 ∧
    ((LoadTexture noFiles seqDevice "foo/bar.png" "assets" World.initial).1 = 0 ↔
      noFiles ("assets" ++ "/" ++ "foo/bar.png") = none ∧
      noFiles ("assets" ++ "/" ++ simpleName "foo/bar.png") = none) ∧
    LoadTexture noFiles seqDevice "foo/bar.png" "assets" World.initial =
      (0, ⟨1, [], ["assets/foo/bar.png", "assets/bar.png"]⟩) ∧
    LoadTexture (oneFile "assets/bar.png") seqDevice "foo/bar.png" "assets" World.initial =
      (1, ⟨1, [⟨1, .GL_RGBA8, .GL_RGBA, 1, 1, [0, 0, 0, 255], true⟩],
        ["assets/foo/bar.png", "assets/bar.png"]⟩) :=
  ⟨by decide,
   (LoadTexture_retry noFiles seqDevice "foo/bar.png" "assets" World.initial).2.2.2
     (by decide),
   by decide, by decide⟩

/-- The handle chosen by lines 378-383 is never 0 on a device that names no
texture 0. -/
theorem resolveTexture_textureID_ne_zero (decode : String → Option Image)
    (dev : Nat → Nat) (hdev : ∀ k, dev k ≠ 0) (material : aiMaterial)
    (mat : Material) (w : World) :
    (resolveTexture decode dev material mat w).1.textureID ≠ 0 := by
  unfold resolveTexture
  dsimp only
  split
  · simp [glCreateTextures, hdev]
  · assumption

theorem LoadTexture_texturesCreated (decode : String → Option Image)
    (dev : Nat → Nat) (path directory : String) (w : World) :
    (LoadTexture decode dev path directory w).2.texturesCreated =
      w.texturesCreated + 1 := by
  unfold LoadTexture
  cases h1 : decode (directory ++ "/" ++ path) with
  | none =>
    cases h2 : decode (directory ++ "/" ++ simpleName path) <;>
      simp [glCreateTextures, stbi_load, uploadImage, h1, h2]
  | some img => simp [glCreateTextures, stbi_load, uploadImage, h1]

theorem loadMaterials_textureID_ne_zero (decode : String → Option Image)
    (dev : Nat → Nat) (hdev : ∀ k, dev k ≠ 0) (sources : List aiMaterial)
    (materials : List Material) (w : World)
    (hprev : ∀ m ∈ materials, m.textureID ≠ 0) :
    ∀ m ∈ (loadMaterials decode dev sources materials w).1, m.textureID ≠ 0 := by
  induction sources generalizing materials w with
  | nil => simpa [loadMaterials] using hprev
  | cons material rest ih =>
    unfold loadMaterials
    apply ih
    intro m hm
    rcases List.mem_append.1 hm with h | h
    · exact hprev m h
    · rw [List.mem_singleton.1 h]
      exact resolveTexture_textureID_ne_zero decode dev hdev material _ w

/-- C4: on a device that names no texture 0, every material produced has a
non-zero texture handle: each iteration of the loop yields one, hence so does
every entry of the list `materials` after the loop.  Without a declared
texture the handle is that of the fresh texture created for the white pixel,
and so it is when both `LoadTexture` calls return 0 (the third texture created
in that iteration); when a `LoadTexture` call returns a non-zero handle, that
handle is kept. -/
theorem material_texture_nonzero (decode : String → Option Image)
    (dev : Nat → Nat) (hdev : ∀ k, dev k ≠ 0) :
    (∀ (sources : List aiMaterial) (w : World),
      ∀ m ∈ (loadMaterials decode dev sources [] w).1, m.textureID ≠ 0) ∧
    (∀ (material : aiMaterial) (w : World),
      (loadMaterial decode dev material w).1.textureID ≠ 0) ∧
    (∀ (material : aiMaterial) (w : World), material.diffuseTextures = [] →
      (loadMaterial decode dev material w).1.textureID = dev w.texturesCreated ∧
      (loadMaterial decode dev material w).2.uploads =
        w.uploads ++ [whiteUpload (dev w.texturesCreated)]) ∧
    (∀ (material : aiMaterial) (w : World) (str : String) (rest : List String),
      material.diffuseTextures = str :: rest →
      ((LoadTexture decode dev str "." w).1 ≠ 0 →
        (loadMaterial decode dev material w).1.textureID =
          (LoadTexture decode dev str "." w).1) ∧
      ((LoadTexture decode dev str "." w).1 = 0 →
        (LoadTexture decode dev str "textures" (LoadTexture decode dev str "." w).2).1 ≠ 0 →
        (loadMaterial decode dev material w).1.textureID =
          (LoadTexture decode dev str "textures" (LoadTexture decode dev str "." w).2).1) ∧
      ((LoadTexture decode dev str "." w).1 = 0 →
        (LoadTexture decode dev str "textures" (LoadTexture decode dev str "." w).2).1 = 0 →
        (loadMaterial decode dev material w).1.textureID = dev (w.texturesCreated + 2) ∧
        (loadMaterial decode dev material w).2.uploads.getLast? =
          some (whiteUpload (dev (w.texturesCreated + 2))))) := by
  refine ⟨?_, ?_, ?_, ?_⟩
  · intro sources w
    exact loadMaterials_textureID_ne_zero decode dev hdev sources [] w (by simp)
  · intro material w
    exact resolveTexture_textureID_ne_zero decode dev hdev material _ w
  · intro material w htex
    have h0 : (classify material).textureID = 0 := by
      rcases material with ⟨_ | name, _ | color, _ | opacity, tex⟩ <;>
        simp [classify] <;> repeat' split
      all_goals rfl
    unfold loadMaterial resolveTexture
    simp [htex, h0, glCreateTextures, whiteUpload]
  · intro material w str rest htex
    unfold loadMaterial resolveTexture
    refine ⟨?_, ?_, ?_⟩
    · intro h1
      simp [htex, h1]
    · intro h1 h2
      simp [htex, h1, h2]
    · intro h1 h2
      simp [htex, h1, h2, glCreateTextures, whiteUpload, LoadTexture_texturesCreated]

/-- C4 (witness): on the device naming its textures 1, 2, 3, ..., with no
decodable file, a material without texture gets texture 1 and a following
material declaring "a.png" gets texture 4 (2 and 3 are the failed loads). -/
theorem material_texture_nonzero_witness :
    (∀ k, seqDevice k ≠ 0) ∧
    (∀ m ∈ (loadMaterials noFiles seqDevice
        [⟨none, none, none, []⟩, ⟨some "paint", none, none, ["a.png"]⟩] []
        World.initial).1, m.textureID ≠ 0) ∧
    (loadMaterials noFiles seqDevice
        [⟨none, none, none, []⟩, ⟨some "paint", none, none, ["a.png"]⟩] []
        World.initial).1.map (fun m => m.textureID) = [1, 4] :=
  ⟨fun k => Nat.succ_ne_zero k,
   (material_texture_nonzero noFiles seqDevice (fun k => Nat.succ_ne_zero k)).1 _ _,
   by decide⟩

/-! ## Mesh flattening -/

theorem foldl_push {α β : Type} (f : α → β) (l : List α) (init : List β) :
    l.foldl (fun acc x => acc ++ [f x]) init = init ++ l.map f := by
  induction l generalizing init with
  | nil => simp
  | cons a t ih => simp [ih]

theorem foldl_push_faces (faces : List aiFace) (init : List Nat) :
    faces.foldl (fun is face => face.mIndices.foldl (fun is k => is ++ [k]) is) init =
      init ++ (faces.map (fun face => face.mIndices)).flatten := by
  induction faces generalizing init with
  | nil => simp
  | cons a t ih =>
    have h := foldl_push (fun k : Nat => k) a.mIndices init
    simp only [List.map_id'] at h
    simp [ih, h]

theorem processMesh_allVertices (mesh : aiMesh) (g : Globals) :
    (processMesh mesh g).allVertices =
      g.allVertices ++ (List.range mesh.mNumVertices).map (makeVertex mesh) := by
  simp [processMesh, foldl_push]

theorem processMesh_allIndices (mesh : aiMesh) (g : Globals) :
    (processMesh mesh g).allIndices = g.allIndices ++ mesh.faceIndices := by
  simp [processMesh, foldl_push_faces, aiMesh.faceIndices]

theorem processMesh_subMeshes (mesh : aiMesh) (g : Globals) :
    (processMesh mesh g).subMeshes =
      g.subMeshes ++
        [{ indexCount := toUInt (mesh.mNumFaces * 3)
           baseIndex := toUInt g.allIndices.length
           baseVertex := toUInt g.allVertices.length
           materialIndex := mesh.mMaterialIndex }] := rfl

theorem toUInt_le (n : Nat) : toUInt n ≤ n := Nat.mod_le n _

theorem toUInt_of_lt (n : Nat) (h : n < 2 ^ 32) : toUInt n = n := Nat.mod_eq_of_lt h

theorem three_mul_length_le_faceIndices (mesh : aiMesh)
    (h : ∀ face ∈ mesh.mFaces, 3 ≤ face.mIndices.length) :
    mesh.mNumFaces * 3 ≤ mesh.faceIndices.length := by
  unfold aiMesh.mNumFaces aiMesh.faceIndices
  generalize mesh.mFaces = faces at h
  induction faces with
  | nil => simp
  | cons a t ih =>
    have h1 := h a (by simp)
    have h2 := ih (fun x hx => h x (by simp [hx]))
    simp only [List.map_cons, List.flatten_cons, List.length_append, List.length_cons] at h2 ⊢
    omega

/-- C6 (amended): for a mesh with `3 * faceCount < 2^32` and buffers holding
fewer than `2^32` vertices and indices, `processMesh` appends exactly one
SubMesh, whose `baseVertex` and `baseIndex` are the lengths of `allVertices`
and `allIndices` before the call, whose `indexCount` is three times the face
count and whose `materialIndex` is the material index of the mesh. -/
theorem processMesh_subMesh (mesh : aiMesh) (g : Globals)
    (hfaces : 3 * mesh.mNumFaces < 2 ^ 32)
    (hvertices : g.allVertices.length < 2 ^ 32)
    (hindices : g.allIndices.length < 2 ^ 32) :
    (processMesh mesh g).subMeshes =
      g.subMeshes ++
        [{ indexCount := 3 * mesh.mNumFaces
           baseIndex := g.allIndices.length
           baseVertex := g.allVertices.length
           materialIndex := mesh.mMaterialIndex }] := by
  rw [processMesh_subMeshes, toUInt_of_lt _ hvertices, toUInt_of_lt _ hindices,
    Nat.mul_comm, toUInt_of_lt _ hfaces]

/-- C6 (witness): a mesh with 4 vertices and 2 triangles sharing an edge,
processed first, yields `indexCount = 6`, `baseIndex = 0`, `baseVertex = 0`
and the material index of the mesh. -/
theorem processMesh_subMesh_witness :
    3 * quadMesh.mNumFaces < 2 ^ 32 ∧
    Globals.empty.allVertices.length < 2 ^ 32 ∧
    Globals.empty.allIndices.length < 2 ^ 32 ∧
    (processMesh quadMesh Globals.empty).subMeshes =
      [{ indexCount := 6, baseIndex := 0, baseVertex := 0, materialIndex := 5 }] :=
  ⟨by decide, by decide, by decide,
   processMesh_subMesh quadMesh Globals.empty (by decide) (by decide) (by decide)⟩

/-- C6 (counterexample): for a mesh of 1431655766 triangles processed first,
the product `mNumFaces * 3` wraps around in `unsigned int`: the SubMesh has
`indexCount = 2`, not three times the face count. -/
theorem processMesh_subMesh_counterexample :
    hugeMesh.mNumFaces = 1431655766 ∧
    (processMesh hugeMesh Globals.empty).subMeshes =
      [{ indexCount := 2, baseIndex := 0, baseVertex := 0, materialIndex := 0 }] ∧
    (2 : Nat) ≠ 3 * hugeMesh.mNumFaces := by
  have hn : hugeMesh.mNumFaces = 1431655766 := by
    simp only [aiMesh.mNumFaces, hugeMesh, List.length_replicate]
  refine ⟨hn, ?_, ?_⟩
  · rw [processMesh_subMeshes, hn]
    simp only [Globals.empty, toUInt, List.length_nil, List.nil_append]
    norm_num
    rfl
  · rw [hn]; norm_num

/-! ## Scene traversal -/

theorem processNodeMeshes_append (scene : aiScene) (a b : List Nat) (g : Globals) :
    processNodeMeshes scene (a ++ b) g =
      processNodeMeshes scene b (processNodeMeshes scene a g) := by
  induction a generalizing g with
  | nil => rfl
  | cons i rest ih => simp [processNodeMeshes, ih]

mutual
/-- The traversal of a node tree flattens the meshes of its pre-order listing,
one after the other. -/
theorem processNode_eq (scene : aiScene) :
    ∀ (node : aiNode) (g : Globals),
      processNode scene node g = processNodeMeshes scene node.meshRefs g
  | .mk mMeshes mChildren, g => by
    rw [processNode, aiNode.meshRefs, processNodeMeshes_append,
      processChildren_eq scene mChildren]
theorem processChildren_eq (scene : aiScene) :
    ∀ (children : List aiNode) (g : Globals),
      processChildren scene children g =
        processNodeMeshes scene (childrenMeshRefs children) g
  | [], g => by rw [processChildren, childrenMeshRefs]; rfl
  | child :: rest, g => by
    rw [processChildren, childrenMeshRefs, processNodeMeshes_append,
      processNode_eq scene child, processChildren_eq scene rest]
end

/-- The traversal of `treeScene` visits the meshes 2, 0, 1, 2, 1. -/
theorem processNode_treeScene :
    treeScene.mRootNode.meshRefs = [2, 0, 1, 2, 1] ∧
    (processNode treeScene treeScene.mRootNode Globals.empty).subMeshes =
      [⟨6, 0, 0, 12⟩, ⟨6, 6, 4, 10⟩, ⟨6, 12, 8, 11⟩, ⟨6, 18, 12, 12⟩, ⟨6, 24, 16, 11⟩] := by
  constructor
  · decide
  · decide

/-- Flattening a mesh whose faces all have at least three indices keeps every
SubMesh inside the index buffer. -/
theorem processMesh_inRange (mesh : aiMesh) (g : Globals)
    (hfaces : ∀ face ∈ mesh.mFaces, 3 ≤ face.mIndices.length)
    (hg : ∀ s ∈ g.subMeshes, s.inRange g) :
    ∀ s ∈ (processMesh mesh g).subMeshes, s.inRange (processMesh mesh g) := by
  intro s hs
  unfold SubMesh.inRange
  rw [processMesh_allIndices, List.length_append]
  rw [processMesh_subMeshes] at hs
  rcases List.mem_append.1 hs with h | h
  · have := hg s h
    unfold SubMesh.inRange at this
    omega
  · rw [List.mem_singleton.1 h]
    have h1 := toUInt_le g.allIndices.length
    have h2 := toUInt_le (mesh.mNumFaces * 3)
    have h3 := three_mul_length_le_faceIndices mesh hfaces
    dsimp only
    omega

theorem processNodeMeshes_inRange (scene : aiScene) (refs : List Nat) (g : Globals)
    (hfaces : ∀ i ∈ refs, ∀ face ∈ (scene.mMeshes i).mFaces, 3 ≤ face.mIndices.length)
    (hg : ∀ s ∈ g.subMeshes, s.inRange g) :
    ∀ s ∈ (processNodeMeshes scene refs g).subMeshes,
      s.inRange (processNodeMeshes scene refs g) := by
  induction refs generalizing g with
  | nil => simpa [processNodeMeshes] using hg
  | cons i rest ih =>
    unfold processNodeMeshes
    apply ih
    · intro j hj
      exact hfaces j (by simp [hj])
    · exact processMesh_inRange _ g (hfaces i (by simp)) hg

/-- C7 (amended): starting from empty buffers, after `processNode` has
flattened a node tree all of whose meshes have only faces of at least three
indices (in particular a fully triangulated scene), every SubMesh `s`
satisfies `s.baseIndex + s.indexCount ≤` the length of `allIndices`. -/
theorem subMesh_inRange (scene : aiScene) (node : aiNode)
    (hfaces : ∀ i ∈ node.meshRefs, ∀ face ∈ (scene.mMeshes i).mFaces,
      3 ≤ face.mIndices.length) :
    ∀ s ∈ (processNode scene node Globals.empty).subMeshes,
      s.baseIndex + s.indexCount ≤
        (processNode scene node Globals.empty).allIndices.length := by
  rw [processNode_eq]
  exact processNodeMeshes_inRange scene node.meshRefs Globals.empty hfaces
    (by simp [Globals.empty])

/-- C7 (witness): the five SubMeshes of `treeScene`, all of whose faces are
triangles, lie inside its 30 indices. -/
theorem subMesh_inRange_witness :
    (∀ i ∈ treeScene.mRootNode.meshRefs, ∀ face ∈ (treeScene.mMeshes i).mFaces,
      3 ≤ face.mIndices.length) ∧
    (processNode treeScene treeScene.mRootNode Globals.empty).allIndices.length = 30 ∧
    ∀ s ∈ (processNode treeScene treeScene.mRootNode Globals.empty).subMeshes,
      s.baseIndex + s.indexCount ≤
        (processNode treeScene treeScene.mRootNode Globals.empty).allIndices.length := by
  have h : ∀ i ∈ treeScene.mRootNode.meshRefs, ∀ face ∈ (treeScene.mMeshes i).mFaces,
      3 ≤ face.mIndices.length := by
    intro i _ face hface
    simp only [treeScene, quadMesh, List.mem_cons, List.mem_singleton, List.not_mem_nil,
      or_false] at hface
    rcases hface with rfl | rfl <;> decide
  exact ⟨h, by decide, subMesh_inRange treeScene treeScene.mRootNode h⟩

/-- C7 (counterexample): a scene whose only mesh is a line segment (one face
of two indices) yields a SubMesh with `baseIndex = 0` and `indexCount = 3`
while `allIndices` holds 2 indices. -/
theorem subMesh_inRange_counterexample :
    (processNode lineScene lineScene.mRootNode Globals.empty).subMeshes =
      [{ indexCount := 3, baseIndex := 0, baseVertex := 0, materialIndex := 0 }] ∧
    (processNode lineScene lineScene.mRootNode Globals.empty).allIndices = [0, 1] ∧
    ¬ ∀ s ∈ (processNode lineScene lineScene.mRootNode Globals.empty).subMeshes,
      s.baseIndex + s.indexCount ≤
        (processNode lineScene lineScene.mRootNode Globals.empty).allIndices.length := by
  refine ⟨by decide, by decide, ?_⟩
  decide

/-! ## Vertex bound -/

theorem foldl_max_le (l : List Nat) (init : Nat) :
    init ≤ l.foldl max init ∧ ∀ k ∈ l, k ≤ l.foldl max init := by
  induction l generalizing init with
  | nil => simp
  | cons a t ih =>
    obtain ⟨h1, h2⟩ := ih (max init a)
    simp only [List.foldl_cons, List.mem_cons, forall_eq_or_imp]
    refine ⟨le_trans (le_max_left _ _) h1, le_trans (le_max_right _ _) h1, h2⟩

theorem foldl_max_lt (l : List Nat) (init n : Nat) (hinit : init < n)
    (h : ∀ k ∈ l, k < n) : l.foldl max init < n := by
  induction l generalizing init with
  | nil => simpa using hinit
  | cons a t ih =>
    simp only [List.foldl_cons]
    apply ih
    · exact max_lt hinit (h a (by simp))
    · intro k hk
      exact h k (by simp [hk])

/-- Every face index is at most `maxFaceIndex`. -/
theorem le_maxFaceIndex (mesh : aiMesh) :
    ∀ face ∈ mesh.mFaces, ∀ k ∈ face.mIndices, k ≤ maxFaceIndex mesh := by
  intro face hface k hk
  unfold maxFaceIndex
  have h1 := (foldl_max_le face.mIndices 0).2 k hk
  have h2 := (foldl_max_le (mesh.mFaces.map (fun face => face.mIndices.foldl max 0)) 0).2
    (face.mIndices.foldl max 0) (List.mem_map.2 ⟨face, hface, rfl⟩)
  exact le_trans h1 h2

theorem maxFaceIndex_lt (mesh : aiMesh) (n : Nat) (hn : 0 < n)
    (h : ∀ face ∈ mesh.mFaces, ∀ k ∈ face.mIndices, k < n) :
    maxFaceIndex mesh < n := by
  unfold maxFaceIndex
  apply foldl_max_lt _ _ _ hn
  intro k hk
  obtain ⟨face, hface, rfl⟩ := List.mem_map.1 hk
  exact foldl_max_lt _ _ _ hn (h face hface)

/-- C8 (amended): for a mesh whose faces all have exactly 3 indices, which has
at least one face, and whose face indices are all below its vertex count,
the SubMesh appended by `processMesh` satisfies
`baseVertex + (largest face index) <` the length of `allVertices` after the
call; so every face index, offset by `baseVertex`, addresses a vertex. -/
theorem processMesh_vertex_bound (mesh : aiMesh) (g : Globals)
    (htri : ∀ face ∈ mesh.mFaces, face.mIndices.length = 3)
    (hface : mesh.mFaces ≠ [])
    (hvalid : ∀ face ∈ mesh.mFaces, ∀ k ∈ face.mIndices, k < mesh.mNumVertices) :
    ∃ sm, (processMesh mesh g).subMeshes = g.subMeshes ++ [sm] ∧
      sm.baseVertex + maxFaceIndex mesh < (processMesh mesh g).allVertices.length ∧
      ∀ face ∈ mesh.mFaces, ∀ k ∈ face.mIndices,
        sm.baseVertex + k < (processMesh mesh g).allVertices.length := by
  have hpos : 0 < mesh.mNumVertices := by
    obtain ⟨face, rest, hm⟩ := List.exists_cons_of_ne_nil hface
    have hf : face ∈ mesh.mFaces := by rw [hm]; simp
    have h3 := htri face hf
    obtain ⟨k, ks, hk⟩ := List.exists_cons_of_ne_nil
      (l := face.mIndices) (by intro h0; rw [h0] at h3; simp at h3)
    have := hvalid face hf k (by rw [hk]; simp)
    omega
  have hmax := maxFaceIndex_lt mesh mesh.mNumVertices hpos hvalid
  have hbase := toUInt_le g.allVertices.length
  refine ⟨_, processMesh_subMeshes mesh g, ?_, ?_⟩
  · rw [processMesh_allVertices]
    simp only [List.length_append, List.length_map, List.length_range]
    omega
  · intro face hf k hk
    have := le_maxFaceIndex mesh face hf k hk
    rw [processMesh_allVertices]
    simp only [List.length_append, List.length_map, List.length_range]
    omega

/-- C8 (witness): the two triangles of `quadMesh` on its four vertices. -/
theorem processMesh_vertex_bound_witness :
    (∀ face ∈ quadMesh.mFaces, face.mIndices.length = 3) ∧
    quadMesh.mFaces ≠ [] ∧
    (∀ face ∈ quadMesh.mFaces, ∀ k ∈ face.mIndices, k < quadMesh.mNumVertices) ∧
    maxFaceIndex quadMesh = 3 ∧
    ∃ sm, (processMesh quadMesh Globals.empty).subMeshes = Globals.empty.subMeshes ++ [sm] ∧
      sm.baseVertex + maxFaceIndex quadMesh <
        (processMesh quadMesh Globals.empty).allVertices.length ∧
      ∀ face ∈ quadMesh.mFaces, ∀ k ∈ face.mIndices,
        sm.baseVertex + k < (processMesh quadMesh Globals.empty).allVertices.length :=
  ⟨by decide, by decide, by decide, by decide,
   processMesh_vertex_bound quadMesh Globals.empty (by decide) (by decide) (by decide)⟩

/-- C8 (counterexample): `strayMesh` has one face of exactly 3 indices, the
largest being 7, and a single vertex; processed first, its SubMesh has
`baseVertex = 0` and `allVertices` has length 1. -/
theorem processMesh_vertex_bound_counterexample :
    (∀ face ∈ strayMesh.mFaces, face.mIndices.length = 3) ∧
    strayMesh.mFaces ≠ [] ∧
    maxFaceIndex strayMesh = 7 ∧
    (processMesh strayMesh Globals.empty).subMeshes =
      [{ indexCount := 3, baseIndex := 0, baseVertex := 0, materialIndex := 0 }] ∧
    (processMesh strayMesh Globals.empty).allVertices.length = 1 ∧
    ¬ (0 + maxFaceIndex strayMesh < (processMesh strayMesh Globals.empty).allVertices.length) :=
  ⟨by decide, by decide, by decide, by decide, by decide, by decide⟩

end Supra
